import Mathlib

set_option autoImplicit false

namespace Rayman

/-! ## Protocol data types, embedded from internal/protocol/messages.go

`Intent` is a `uint8` bitmask; the constants follow the Go iota pattern
(`IntentNone = 0`, `IntentLeft = 1 << 1`, ...).  `EntityID` is a `uint64`;
none of the claims exercise 64-bit wraparound, so it is embedded as `Nat`.
Component byte slices are embedded as `List Nat`. -/

abbrev EntityID := Nat

def IntentNone : Nat := 0
def IntentLeft : Nat := 2
def IntentRight : Nat := 4
def IntentJump : Nat := 8
def IntentAttack : Nat := 16
def IntentUse : Nat := 32

/-- protocol.EntityState: serialized state of one entity. -/
structure PEntityState where
  id : EntityID
  components : List Nat
  deriving DecidableEq, Repr

/-- protocol.StateSnapshot: game state for one tick (wire form). -/
structure PStateSnapshot where
  tick : Nat
  full : Bool
  baseline : Nat
  entities : List PEntityState
  removed : List EntityID
  deriving DecidableEq, Repr

/-- protocol.InputFrame: player input for one tick. -/
structure InputFrame where
  tick : Nat
  intents : Nat
  deriving DecidableEq, Repr

/-! ## Synchronization, embedded from internal/sync (Baseline, Diff, Apply)

Go maps (`map[EntityID][]byte`, `map[EntityID]EntityState`) are embedded as
association lists with the usual lookup / upsert / delete operations; a Go
map always has distinct keys, and the list order is one linearization of
the (unordered) map contents. -/

/-- sync.Baseline: last acknowledged state per client. -/
structure Baseline where
  tick : Nat
  entities : List (EntityID × List Nat)
  deriving DecidableEq, Repr

/-- Go map lookup on an association list (first matching key). -/
def mapLookup {β : Type} : List (EntityID × β) → EntityID → Option β
  | [], _ => none
  | (k, v) :: rest, id => if k = id then some v else mapLookup rest id

/-- sync.bytesEqual: length check, then elementwise comparison. -/
def bytesEqual (a b : List Nat) : Bool :=
  a.length == b.length && (List.zip a b).all (fun p => p.1 == p.2)

/-- The per-entity inclusion test of sync.Diff: an entity is included when it
is new (not in the baseline) or its bytes differ from the baseline. -/
def diffIncluded (baseline : Baseline) (e : PEntityState) : Bool :=
  match mapLookup baseline.entities e.id with
  | some old => !(bytesEqual old e.components)
  | none => true

/-- sync.Diff: delta between a baseline and the current entity list.  The Go
composite literal does not set the `Tick` field, so it stays at its zero
value. -/
def Diff (baseline : Baseline) (current : List PEntityState) : PStateSnapshot :=
  { tick := 0
    full := false
    baseline := baseline.tick
    entities := current.filter (diffIncluded baseline)
    removed := (baseline.entities.filter
        (fun p => !(current.any (fun e => e.id == p.1)))).map Prod.fst }

/-- The receiver state `map[EntityID]EntityState`, as an association list. -/
abbrev StateMap := List (EntityID × PEntityState)

/-- Go map upsert: replace the binding if the key exists, else append. -/
def mapUpsert : StateMap → PEntityState → StateMap
  | [], e => [(e.id, e)]
  | (k, v) :: rest, e => if k = e.id then (k, e) :: rest else (k, v) :: mapUpsert rest e

/-- Go map delete. -/
def mapDelete (m : StateMap) (id : EntityID) : StateMap :=
  m.filter (fun p => !(p.1 == id))

/-- sync.Apply: if `Full`, clear the state; then upsert every entity of the
snapshot and delete every removed id. -/
def Apply (state : StateMap) (snap : PStateSnapshot) : StateMap :=
  let s0 := if snap.full then [] else state
  let s1 := snap.entities.foldl mapUpsert s0
  snap.removed.foldl mapDelete s1

/-- The canonical view of a current entity list: the first entity carrying a
given id (ids are distinct in every use of `Diff`). -/
def currentLookup (current : List PEntityState) (id : EntityID) : Option PEntityState :=
  current.find? (fun e => e.id == id)

/-! ## Game components, embedded from internal/game/components.go and the
charge-release world (part_024).  Go `float64` fields are embedded as `ℚ`;
every constant of the source is an exactly representable decimal, so the
arithmetic of the claims is unaffected. -/

structure Position where
  x : ℚ
  y : ℚ
  deriving DecidableEq, Repr

structure Velocity where
  x : ℚ
  y : ℚ
  deriving DecidableEq, Repr

structure Grounded where
  onGround : Bool
  deriving DecidableEq, Repr

structure Controller where
  intents : Nat
  deriving DecidableEq, Repr

structure Player where
  id : Int
  name : String
  deriving DecidableEq, Repr

structure Health where
  current : Int
  max : Int
  deriving DecidableEq, Repr

structure Gravity where
  scale : ℚ
  deriving DecidableEq, Repr

structure Sprite where
  id : String
  color : Nat
  deriving DecidableEq, Repr

structure Collider where
  offsetX : ℚ
  offsetY : ℚ
  width : ℚ
  height : ℚ
  deriving DecidableEq, Repr

/-- AttackState of the charge-release design: the struct fields are taken
from their uses in part_024 (`Attacking`, `TicksLeft`, `FacingRight`,
`Charging`, `ChargeTicks`, `AttackWasPressed`). -/
structure AttackState where
  attacking : Bool
  ticksLeft : Int
  facingRight : Bool
  charging : Bool
  chargeTicks : Int
  attackWasPressed : Bool
  deriving DecidableEq, Repr

structure Fist where
  startX : ℚ
  maxDistance : ℚ
  facingRight : Bool
  ownerID : Int
  deriving DecidableEq, Repr

def MaxChargeTicks : Int := 180
def MinFistDistance : ℚ := 1
def MaxFistDistance : ℚ := 20
def FistSpeed : ℚ := 4 / 5

/-- Modelled from the spec: the `AttackCooldown` constant used by the
charge-release attack system is declared in a components file that is not
present under src; the spec only says it is a fixed cooldown window of
`AttackCooldown` ticks.  No claim depends on its value. -/
def AttackCooldown : Int := 8

def moveSpeed : ℚ := 1 / 2
def jumpSpeed : ℚ := 1
def gravityAccel : ℚ := 2 / 25

/-! ### Tile map, embedded from internal/collision (part_014) -/

def TileSolid : Nat := 2

structure TileMap where
  width : Int
  height : Int
  tiles : List Nat
  deriving DecidableEq, Repr

/-- TileMap.Get: out of bounds is solid. -/
def TileMap.get (m : TileMap) (x y : Int) : Nat :=
  if x < 0 ∨ x ≥ m.width ∨ y < 0 ∨ y ≥ m.height then TileSolid
  else m.tiles.getD (y * m.width + x).toNat 0

def TileMap.isSolid (m : TileMap) (x y : Int) : Bool :=
  (m.get x y).land TileSolid != 0

/-! ### The ECS world.  Entities are a list (ark iterates its archetype
tables in a deterministic order; the list is that order); a filter selects
the entities carrying the needed components. -/

structure Entity where
  eid : Nat
  pos : Position
  vel : Velocity
  collider : Option Collider
  sprite : Option Sprite
  player : Option Player
  health : Option Health
  gravity : Option Gravity
  grounded : Option Grounded
  controller : Option Controller
  attack : Option AttackState
  fist : Option Fist
  deriving DecidableEq, Repr

structure World where
  tick : Nat
  entities : List Entity
  tileMap : Option TileMap
  nextEID : Nat
  deriving DecidableEq, Repr

/-- Bitmask test `intents & flag != 0`. -/
def hasIntent (intents flag : Nat) : Bool := intents.land flag != 0

/-- The loop body of runInputSystem for one entity of the control filter
(Velocity, Grounded, Controller): reset horizontal velocity, recompute it
from the intent bitmask, jump only if grounded. -/
def inputEntityStep (e : Entity) : Entity :=
  match e.controller, e.grounded with
  | some ctrl, some g =>
    let vx : ℚ := 0
    let vx := if hasIntent ctrl.intents IntentLeft then -moveSpeed else vx
    let vx := if hasIntent ctrl.intents IntentRight then moveSpeed else vx
    let jump := hasIntent ctrl.intents IntentJump && g.onGround
    { e with vel := { x := vx, y := if jump then -jumpSpeed else e.vel.y },
             grounded := some { onGround := if jump then false else g.onGround } }
  | _, _ => e

def runInputSystem (w : World) : World :=
  { w with entities := w.entities.map inputEntityStep }

structure FistSpawn where
  x : ℚ
  y : ℚ
  facingRight : Bool
  distance : ℚ
  ownerID : Int
  deriving DecidableEq, Repr

/-- The travel distance computed at release inside runAttackSystem:
`MinFistDistance + (ChargeTicks/MaxChargeTicks) * (MaxFistDistance - MinFistDistance)`. -/
def fistDistance (chargeTicks : Int) : ℚ :=
  MinFistDistance +
    ((chargeTicks : ℚ) / (MaxChargeTicks : ℚ)) * (MaxFistDistance - MinFistDistance)

/-- Charging sprite id: 3 levels based on charge progress. -/
def chargeSpriteID (a : AttackState) : String :=
  let chargeLevel : Int :=
    if a.chargeTicks > MaxChargeTicks * 2 / 3 then 3
    else if a.chargeTicks > MaxChargeTicks / 3 then 2 else 1
  (if a.facingRight then "player_charge_right_" else "player_charge_left_") ++
    toString chargeLevel

/-- The loop body of runAttackSystem for one entity of the attack filter
(Position, Sprite, Controller, AttackState, Velocity, Player); returns the
updated entity and the fist spawn request, if the attack fired. -/
def attackEntityStep (e : Entity) : Entity × Option FistSpawn :=
  match e.sprite, e.controller, e.attack, e.player with
  | some sprite, some ctrl, some a0, some player =>
    let a1 := if e.vel.x > 0 then { a0 with facingRight := true }
              else if e.vel.x < 0 then { a0 with facingRight := false } else a0
    let attackPressed := hasIntent ctrl.intents IntentAttack
    let attackJustPressed := attackPressed && !a1.attackWasPressed
    let attackJustReleased := !attackPressed && a1.attackWasPressed
    let a2 := { a1 with attackWasPressed := attackPressed }
    let a3 := if attackJustPressed && !a2.attacking && !a2.charging then
        { a2 with charging := true, chargeTicks := 0 }
      else a2
    let a4 := if a3.charging && attackPressed then
        { a3 with chargeTicks :=
            if a3.chargeTicks + 1 > MaxChargeTicks then MaxChargeTicks
            else a3.chargeTicks + 1 }
      else a3
    let fire := attackJustReleased && a4.charging
    let spawn : Option FistSpawn :=
      if fire then
        some { x := e.pos.x, y := e.pos.y, facingRight := a4.facingRight,
               distance := fistDistance a4.chargeTicks, ownerID := player.id }
      else none
    let a5 := if fire then
        { a4 with charging := false, chargeTicks := 0, attacking := true,
                  ticksLeft := AttackCooldown }
      else a4
    let res := if a5.charging then
        (a5, { sprite with id := chargeSpriteID a5 })
      else if a5.attacking then
        (if a5.ticksLeft > 0 then
          ({ a5 with ticksLeft := a5.ticksLeft - 1 },
           { sprite with id := if a5.facingRight then "player_punch_right"
                               else "player_punch_left" })
        else ({ a5 with attacking := false }, { sprite with id := "player" }))
      else (a5, { sprite with id := "player" })
    ({ e with attack := some res.1, sprite := some res.2 }, spawn)
  | _, _, _, _ => (e, none)

/-- World.SpawnFist: creates the flying fist projectile at chest height. -/
def SpawnFist (w : World) (x y : ℚ) (facingRight : Bool) (maxDistance : ℚ)
    (ownerID : Int) : World × Nat :=
  let velX := if facingRight then FistSpeed else -FistSpeed
  let spriteID := if facingRight then "fist_right" else "fist_left"
  let chestY := y - 1 / 2
  let ent : Entity :=
    { eid := w.nextEID
      pos := { x := x, y := chestY }
      vel := { x := velX, y := 0 }
      collider := none
      sprite := some { id := spriteID, color := 16776960 }
      player := none
      health := none
      gravity := none
      grounded := none
      controller := none
      attack := none
      fist := some { startX := x, maxDistance := maxDistance,
                     facingRight := facingRight, ownerID := ownerID } }
  ({ w with entities := w.entities ++ [ent], nextEID := w.nextEID + 1 }, w.nextEID)

/-- runAttackSystem: run the per-entity step over the query, then spawn the
collected fists after the query completes. -/
def runAttackSystem (w : World) : World :=
  let stepped := w.entities.map attackEntityStep
  let w1 := { w with entities := stepped.map Prod.fst }
  (stepped.filterMap Prod.snd).foldl
    (fun wa s => (SpawnFist wa s.x s.y s.facingRight s.distance s.ownerID).1) w1

/-- The loop body of runFistSystem (Position, Velocity, Fist): move the fist
and mark it for removal once its traveled distance reaches the maximum. -/
def fistEntityStep (e : Entity) : Entity × Bool :=
  match e.fist with
  | some fist =>
    let pos1 := { e.pos with x := e.pos.x + e.vel.x }
    let traveled := pos1.x - fist.startX
    let traveled := if !fist.facingRight then -traveled else traveled
    ({ e with pos := pos1 }, decide (traveled ≥ fist.maxDistance))
  | none => (e, false)

/-- runFistSystem: removal is deferred until after the query loop. -/
def runFistSystem (w : World) : World :=
  let stepped := w.entities.map fistEntityStep
  { w with entities := (stepped.filter (fun p => !p.2)).map Prod.fst }

/-- The loop body of runPhysicsSystem (Position, Velocity, Gravity,
Grounded): gravity, fall-speed cap, integration, grounded cleared. -/
def physicsEntityStep (e : Entity) : Entity :=
  match e.gravity, e.grounded with
  | some grav, some _ =>
    let vy := e.vel.y + gravityAccel * grav.scale
    let vy := if vy > 1 then 1 else vy
    { e with
      vel := { e.vel with y := vy }
      pos := { x := e.pos.x + e.vel.x, y := e.pos.y + vy }
      grounded := some { onGround := false } }
  | _, _ => e

def runPhysicsSystem (w : World) : World :=
  { w with entities := w.entities.map physicsEntityStep }

/-- Go float-to-int conversion: truncation toward zero. -/
def goTrunc (q : ℚ) : Int := if q < 0 then -(Int.floor (-q)) else Int.floor q

/-- The loop body of runCollisionSystem: ground, ceiling, wall and
world-edge resolution, in source order. -/
def collisionEntityStep (tm : TileMap) (e : Entity) : Entity :=
  match e.gravity, e.grounded with
  | some _, some g0 =>
    let colW : ℚ := 4 / 5
    let colH : ℚ := 9 / 10
    let pos0 := e.pos
    let vel0 := e.vel
    let tileX := goTrunc pos0.x
    let tileY := goTrunc (pos0.y + colH)
    let r1 :=
      if tm.isSolid tileX tileY ∧ vel0.y > 0 then
        ({ pos0 with y := (tileY : ℚ) - colH }, { vel0 with y := 0 }, (⟨true⟩ : Grounded))
      else (pos0, vel0, g0)
    let pos1 := r1.1
    let vel1 := r1.2.1
    let g1 := r1.2.2
    let headTileY := goTrunc pos1.y
    let r2 :=
      if tm.isSolid tileX headTileY ∧ vel1.y < 0 then
        ({ pos1 with y := ((headTileY + 1 : Int) : ℚ) }, { vel1 with y := 0 })
      else (pos1, vel1)
    let pos2 := r2.1
    let vel2 := r2.2
    let wallTileX := goTrunc (pos2.x - colW / 2)
    let wallTileY := goTrunc (pos2.y + colH / 2)
    let r3 :=
      if tm.isSolid wallTileX wallTileY then
        ({ pos2 with x := ((wallTileX + 1 : Int) : ℚ) + colW / 2 }, { vel2 with x := 0 })
      else (pos2, vel2)
    let pos3 := r3.1
    let vel3 := r3.2
    let wallTileX2 := goTrunc (pos3.x + colW / 2)
    let r4 :=
      if tm.isSolid wallTileX2 wallTileY then
        ({ pos3 with x := ((wallTileX2 : Int) : ℚ) - colW / 2 }, { vel3 with x := 0 })
      else (pos3, vel3)
    let pos4 := r4.1
    let vel4 := r4.2
    let pos5 := if pos4.x < colW / 2 then { pos4 with x := colW / 2 } else pos4
    let pos6 := if pos5.x > (tm.width : ℚ) - colW / 2 then
        { pos5 with x := (tm.width : ℚ) - colW / 2 } else pos5
    let pos7 := if pos6.y < 0 then { pos6 with y := 0 } else pos6
    let r5 :=
      if pos7.y > (tm.height : ℚ) - colH then
        ({ pos7 with y := (tm.height : ℚ) - colH }, { vel4 with y := 0 }, (⟨true⟩ : Grounded))
      else (pos7, vel4, g1)
    { e with pos := r5.1, vel := r5.2.1, grounded := some r5.2.2 }
  | _, _ => e

def runCollisionSystem (w : World) : World :=
  match w.tileMap with
  | none => w
  | some tm => { w with entities := w.entities.map (collisionEntityStep tm) }

/-- World.Update: advance one tick through the fixed pipeline. -/
def Update (w : World) : World :=
  runCollisionSystem (runPhysicsSystem (runFistSystem (runAttackSystem
    (runInputSystem { w with tick := w.tick + 1 }))))

/-- The loop body of SetPlayerIntent over the control filter (Velocity,
Grounded, Controller): overwrite the intents. -/
def setIntentEntity (intents : Nat) (e : Entity) : Entity :=
  match e.controller, e.grounded with
  | some _, some _ => { e with controller := some { intents := intents } }
  | _, _ => e

/-- World.SetPlayerIntent: sets the input intent for all players. -/
def SetPlayerIntent (w : World) (playerID : Int) (intents : Nat) : World :=
  { w with entities := w.entities.map (setIntentEntity intents) }

/-! ### Snapshot, checksum and state comparison, embedded from part_022 -/

structure GEntityState where
  entity : Nat
  position : Position
  velocity : Velocity
  grounded : Grounded
  hasPlayer : Bool
  player : Player
  hasAttack : Bool
  attack : AttackState
  deriving DecidableEq, Repr

structure WorldState where
  tick : Nat
  entities : List GEntityState
  checksum : Nat
  deriving DecidableEq, Repr

/-- Little-endian 8-byte expansion, as the Go shift-and-truncate loop. -/
def le8Bytes (n : Nat) : List Nat :=
  [n % 256, n / 2 ^ 8 % 256, n / 2 ^ 16 % 256, n / 2 ^ 24 % 256,
   n / 2 ^ 32 % 256, n / 2 ^ 40 % 256, n / 2 ^ 48 % 256, n / 2 ^ 56 % 256]

/-- The 8 bytes Go produces from an int64 (two's complement). -/
def int64Bytes (v : Int) : List Nat := le8Bytes ((v.emod (2 ^ 64)).toNat)

/-- fnv-1a, 32 bit: hash = (hash xor byte) * 16777619 mod 2^32. -/
def fnv1a32 (bytes : List Nat) : Nat :=
  bytes.foldl (fun h b => (Nat.xor h b) * 16777619 % 2 ^ 32) 2166136261

/-- WorldState.computeChecksum: fnv-1a over the tick bytes and, per entity,
the position quantized to thousandths — nothing else is hashed. -/
def WorldState.computeChecksum (state : WorldState) : Nat :=
  fnv1a32 (le8Bytes (state.tick % 2 ^ 64) ++
    (state.entities.map (fun es =>
      int64Bytes (goTrunc (es.position.x * 1000)) ++
      int64Bytes (goTrunc (es.position.y * 1000)))).flatten)

def defaultPlayer : Player := { id := 0, name := "" }

def defaultAttack : AttackState :=
  { attacking := false, ticksLeft := 0, facingRight := false,
    charging := false, chargeTicks := 0, attackWasPressed := false }

/-- World.Snapshot: capture every physics-filter entity; `HasPlayer` and
`HasAttack` record membership in the player and attack filters, with the Go
zero values otherwise. -/
def Snapshot (w : World) : WorldState :=
  let ents := w.entities.filterMap (fun e =>
    match e.gravity, e.grounded with
    | some _, some g =>
      let hasAtk := e.sprite.isSome && e.controller.isSome &&
        e.attack.isSome && e.player.isSome
      some { entity := e.eid
             position := e.pos
             velocity := e.vel
             grounded := g
             hasPlayer := e.player.isSome
             player := e.player.getD defaultPlayer
             hasAttack := hasAtk
             attack := if hasAtk then e.attack.getD defaultAttack else defaultAttack }
    | _, _ => none)
  let st : WorldState := { tick := w.tick, entities := ents, checksum := 0 }
  { st with checksum := st.computeChecksum }

/-- The per-entity detailed comparison of StatesMatch: positions within
tolerance, exact equality of the grounded flag. -/
def entityMatch (ea eb : GEntityState) (tolerance : ℚ) : Bool :=
  let dx := ea.position.x - eb.position.x
  let dx := if dx < 0 then -dx else dx
  let dy := ea.position.y - eb.position.y
  let dy := if dy < 0 then -dy else dy
  !(decide (dx > tolerance) || decide (dy > tolerance)) &&
    (ea.grounded.onGround == eb.grounded.onGround)

/-- The detailed comparison of StatesMatch (everything after the checksum
fast path): equal entity counts and every entity pair matching. -/
def detailedMatch (a b : WorldState) (tolerance : ℚ) : Bool :=
  a.entities.length == b.entities.length &&
    (List.zip a.entities b.entities).all (fun p => entityMatch p.1 p.2 tolerance)

/-- game.StatesMatch: checksum fast path, then the detailed comparison. -/
def StatesMatch (a b : WorldState) (tolerance : ℚ) : Bool :=
  if a.checksum == b.checksum then true else detailedMatch a b tolerance

/-! ## Claims about the world simulation -/

/-- A controllable test entity holding both IntentLeft and IntentRight. -/
def inputDemoEntity : Entity :=
  { eid := 1
    pos := { x := 0, y := 0 }
    vel := { x := 3, y := 0 }
    collider := none
    sprite := none
    player := none
    health := none
    gravity := none
    grounded := some { onGround := true }
    controller := some { intents := Nat.lor IntentLeft IntentRight }
    attack := none
    fist := none }

/-- A one-entity test world around `inputDemoEntity`. -/
def inputDemoWorld : World :=
  { tick := 0, entities := [inputDemoEntity], tileMap := none, nextEID := 2 }

/-- A snapshot entity at the origin with a chosen grounded flag. -/
def groundedSnapEntity (onGround : Bool) : GEntityState :=
  { entity := 1
    position := { x := 0, y := 0 }
    velocity := { x := 0, y := 0 }
    grounded := { onGround := onGround }
    hasPlayer := false
    player := defaultPlayer
    hasAttack := false
    attack := defaultAttack }

def stateGroundedTrue : WorldState :=
  let base : WorldState := { tick := 1, entities := [groundedSnapEntity true], checksum := 0 }
  { base with checksum := base.computeChecksum }

def stateGroundedFalse : WorldState :=
  let base : WorldState := { tick := 1, entities := [groundedSnapEntity false], checksum := 0 }
  { base with checksum := base.computeChecksum }

/-- One server-style tick: apply the per-tick intents, then Update. -/
def stepTick (w : World) (playerID : Int) (intents : Nat) : World :=
  Update (SetPlayerIntent w playerID intents)

/-- Run the tick pipeline over a per-tick input sequence, collecting the
snapshot after every tick. -/
def runTicks (w : World) : List (Int × Nat) → List WorldState
  | [] => []
  | i :: rest => Snapshot (stepTick w i.1 i.2) :: runTicks (stepTick w i.1 i.2) rest

/-! ## The charge-release scenario (claims C6 and C7)

A single player, spawned as by World.SpawnPlayer, holds the attack intent for
`n` ticks and then releases it; each tick runs `SetPlayerIntent` followed by
`Update`, as the server loop does. -/

/-- The player entity as World.SpawnPlayer creates it (plus the AttackState
the wrapper adds), at position (10, 10). -/
def demoPlayer : Entity :=
  { eid := 1
    pos := { x := 10, y := 10 }
    vel := { x := 0, y := 0 }
    collider := some { offsetX := 0, offsetY := 0, width := 4 / 5, height := 9 / 10 }
    sprite := some { id := "player", color := 65280 }
    player := some { id := 1, name := "Test" }
    health := some { current := 3, max := 3 }
    gravity := some { scale := 1 }
    grounded := some { onGround := false }
    controller := some { intents := IntentNone }
    attack := some { attacking := false, ticksLeft := 0, facingRight := true,
                     charging := false, chargeTicks := 0, attackWasPressed := false }
    fist := none }

def chargeWorld : World :=
  { tick := 0, entities := [demoPlayer], tileMap := none, nextEID := 2 }

/-- Hold the attack intent for `n` ticks. -/
def holdAttack : Nat → World
  | 0 => chargeWorld
  | n + 1 => stepTick (holdAttack n) 1 IntentAttack

/-- Hold the attack intent for `n` ticks, then release for one tick. -/
def holdRelease (n : Nat) : World := stepTick (holdAttack n) 1 IntentNone

/-- All fist projectiles currently in the world. -/
def spawnedFists (w : World) : List Fist := w.entities.filterMap Entity.fist

/-- The shape of the single player entity while it is charging. -/
def chargingEntity (pos : Position) (vy : ℚ) (spr : Sprite) (g : Grounded)
    (a : AttackState) : Entity :=
  { eid := 1
    pos := pos
    vel := { x := 0, y := vy }
    collider := some { offsetX := 0, offsetY := 0, width := 4 / 5, height := 9 / 10 }
    sprite := some spr
    player := some { id := 1, name := "Test" }
    health := some { current := 3, max := 3 }
    gravity := some { scale := 1 }
    grounded := some g
    controller := some { intents := IntentAttack }
    attack := some a
    fist := none }

/-- The attack state after holding the attack intent for `n` ticks. -/
def chargingState (n : Nat) : AttackState :=
  { attacking := false, ticksLeft := 0, facingRight := true, charging := true,
    chargeTicks := min (n : Int) MaxChargeTicks, attackWasPressed := true }

/-! ## Server, embedded from internal/server/server.go (claim C8).

The Go server iterates its session map; the session list here is one
iteration order of that map.  `processTick` drains each session queue up to
`tick+1`, applies every drained frame via World.SetPlayerIntent, then runs
World.Update exactly once and adopts the world tick. -/

structure Session where
  id : Int
  playerID : Int
  name : String
  inputQueue : List InputFrame
  lastAckTick : Nat
  deriving DecidableEq, Repr

def DrainInputs (s : Session) (upToTick : Nat) : List InputFrame × Session :=
  (s.inputQueue.filter (fun f => decide (f.tick ≤ upToTick)),
   { s with inputQueue := s.inputQueue.filter (fun f => !(decide (f.tick ≤ upToTick))) })

structure Server where
  tick : Nat
  world : World
  sessions : List Session
  deriving DecidableEq, Repr

def inputPhase (srv : Server) : World :=
  srv.sessions.foldl (fun w sess =>
    ((DrainInputs sess (srv.tick + 1)).1).foldl
      (fun w2 inp => SetPlayerIntent w2 sess.playerID inp.intents) w) srv.world

def processTick (srv : Server) : Server :=
  let w2 := Update (inputPhase srv)
  { tick := w2.tick
    world := w2
    sessions := srv.sessions.map (fun sess => (DrainInputs sess (srv.tick + 1)).2) }

def drainedPairs (srv : Server) : List (Int × Nat) :=
  (srv.sessions.map (fun sess =>
    ((DrainInputs sess (srv.tick + 1)).1).map (fun f => (sess.playerID, f.intents)))).flatten

def retainLater (upToTick : Nat) (s : Session) : Session :=
  { s with inputQueue := s.inputQueue.filter (fun f => decide (upToTick < f.tick)) }

def twoPlayerEntity (eid : Nat) (pid : Int) : Entity :=
  { eid := eid
    pos := { x := 0, y := 0 }
    vel := { x := 0, y := 0 }
    collider := none
    sprite := none
    player := some { id := pid, name := "" }
    health := none
    gravity := none
    grounded := some { onGround := false }
    controller := some { intents := IntentNone }
    attack := none
    fist := none }

def sessionA : Session :=
  { id := 1, playerID := 1, name := "", inputQueue := [{ tick := 1, intents := IntentLeft }],
    lastAckTick := 0 }

def sessionB : Session :=
  { id := 2, playerID := 2, name := "", inputQueue := [{ tick := 1, intents := IntentRight }],
    lastAckTick := 0 }

def srvDemo : Server :=
  { tick := 0
    world := { tick := 0, entities := [twoPlayerEntity 1 1, twoPlayerEntity 2 2],
               tileMap := none, nextEID := 3 }
    sessions := [sessionA, sessionB] }

/-! ## Theorems -/

/-! ### Helper lemmas about the association-list map operations -/

theorem bytesEqual_iff : ∀ (a b : List Nat), bytesEqual a b = true ↔ a = b
  | [], [] => by simp [bytesEqual]
  | [], _ :: _ => by simp [bytesEqual]
  | _ :: _, [] => by simp [bytesEqual]
  | x :: xs, y :: ys => by
    have ih := bytesEqual_iff xs ys
    simp only [bytesEqual, List.length_cons, List.zip_cons_cons, List.all_cons,
      Bool.and_eq_true, beq_iff_eq, List.cons.injEq] at ih ⊢
    constructor
    · rintro ⟨hlen, hxy, hall⟩
      exact ⟨hxy, ih.mp ⟨by omega, hall⟩⟩
    · rintro ⟨hxy, hrest⟩
      have h2 := ih.mpr hrest
      exact ⟨by omega, hxy, h2.2⟩

theorem mapLookup_mapUpsert (m : StateMap) (e : PEntityState) (id : EntityID) :
    mapLookup (mapUpsert m e) id = if e.id = id then some e else mapLookup m id := by
  induction m with
  | nil =>
    by_cases h : e.id = id <;> simp [mapUpsert, mapLookup, h]
  | cons p rest ih =>
    obtain ⟨k, v⟩ := p
    by_cases hk : k = e.id
    · by_cases hid : k = id
      · simp [mapUpsert, mapLookup, hk, hid, hk ▸ hid]
      · have h2 : ¬ e.id = id := fun h => hid (hk.trans h)
        simp [mapUpsert, mapLookup, hk, hid, h2]
    · by_cases hid : k = id
      · have h2 : ¬ e.id = id := fun h => hk (hid.trans h.symm)
        have h3 : ¬ id = e.id := fun h => h2 h.symm
        simp [mapUpsert, mapLookup, hk, hid, h2, h3]
      · simp [mapUpsert, mapLookup, hk, hid, ih]

theorem mapLookup_foldl_upsert (es : List PEntityState) (m : StateMap) (id : EntityID)
    (h : (es.map PEntityState.id).Nodup) :
    mapLookup (es.foldl mapUpsert m) id =
      match es.find? (fun e => e.id == id) with
      | some e => some e
      | none => mapLookup m id := by
  induction es generalizing m with
  | nil => simp [List.find?]
  | cons e rest ih =>
    simp only [List.map_cons, List.nodup_cons, List.mem_map] at h
    obtain ⟨hnotin, hnd⟩ := h
    rw [List.foldl_cons, ih _ hnd]
    by_cases he : e.id = id
    · have hfind : rest.find? (fun x => x.id == id) = none := by
        apply List.find?_eq_none.mpr
        intro x hx
        simp only [beq_eq_false_iff_ne, ne_eq, beq_iff_eq]
        intro hxid
        exact hnotin ⟨x, hx, by rw [hxid, he]⟩
      rw [hfind, List.find?_cons_of_pos _ (by simp [he])]
      simp [mapLookup_mapUpsert, he]
    · rw [List.find?_cons_of_neg _ (by simp [he])]
      cases hfind : rest.find? (fun x => x.id == id) with
      | some x => simp
      | none => simp [mapLookup_mapUpsert, he]

theorem mapLookup_mapDelete (m : StateMap) (i id : EntityID) :
    mapLookup (mapDelete m i) id = if id = i then none else mapLookup m id := by
  induction m with
  | nil => by_cases h : id = i <;> simp [mapDelete, mapLookup, h]
  | cons p rest ih =>
    obtain ⟨k, v⟩ := p
    by_cases hk : k = i
    · have h1 : mapDelete ((k, v) :: rest) i = mapDelete rest i := by
        simp [mapDelete, List.filter_cons, hk]
      rw [h1, ih]
      by_cases hid : id = i
      · simp [hid]
      · have h2 : ¬ k = id := fun h => hid (h.symm.trans hk)
        simp [mapLookup, hid, h2]
    · have h1 : mapDelete ((k, v) :: rest) i = (k, v) :: mapDelete rest i := by
        simp [mapDelete, List.filter_cons, hk]
      rw [h1]
      by_cases hid : k = id
      · have h2 : ¬ id = i := fun h => hk (hid.trans h)
        simp [mapLookup, hid, h2]
      · simp [mapLookup, hid, ih]

theorem mapLookup_foldl_delete (ids : List EntityID) (m : StateMap) (id : EntityID) :
    mapLookup (ids.foldl mapDelete m) id = if id ∈ ids then none else mapLookup m id := by
  induction ids generalizing m with
  | nil => simp
  | cons i rest ih =>
    rw [List.foldl_cons, ih]
    by_cases hmem : id ∈ rest
    · simp [hmem]
    · by_cases hi : id = i <;> simp [hmem, hi, mapLookup_mapDelete]

theorem find?_filter_eq {α : Type} (l : List α) (p q : α → Bool) :
    (l.filter p).find? q = l.find? (fun a => p a && q a) := by
  induction l with
  | nil => rfl
  | cons a t ih =>
    by_cases hp : p a
    · by_cases hq : q a
      · rw [List.filter_cons_of_pos hp, List.find?_cons_of_pos _ hq,
          List.find?_cons_of_pos _ (by simp [hp, hq])]
      · rw [List.filter_cons_of_pos hp, List.find?_cons_of_neg _ (by simp [hq]),
          List.find?_cons_of_neg _ (by simp [hq]), ih]
    · rw [List.filter_cons_of_neg hp, List.find?_cons_of_neg _ (by simp [hp]), ih]

theorem find?_and_of_find? {α : Type} (l : List α) (p q : α → Bool) (e : α)
    (h : l.find? q = some e) (hp : p e = true) :
    l.find? (fun x => p x && q x) = some e := by
  induction l with
  | nil => simp [List.find?] at h
  | cons a t ih =>
    by_cases hq : q a
    · rw [List.find?_cons_of_pos _ hq] at h
      injection h with h
      subst h
      rw [List.find?_cons_of_pos _ (by simp [hp, hq])]
    · rw [List.find?_cons_of_neg _ (by simp [hq])] at h
      rw [List.find?_cons_of_neg _ (by simp [hq]), ih h]

theorem mapLookup_some_mem {β : Type} (m : List (EntityID × β)) (id : EntityID) (v : β)
    (h : mapLookup m id = some v) : ∃ p ∈ m, p.1 = id ∧ p.2 = v := by
  induction m with
  | nil => simp [mapLookup] at h
  | cons p rest ih =>
    obtain ⟨k, w⟩ := p
    simp only [mapLookup] at h
    by_cases hk : k = id
    · rw [if_pos hk] at h
      injection h with h
      exact ⟨(k, w), List.mem_cons_self _ _, hk, h⟩
    · rw [if_neg hk] at h
      obtain ⟨q, hq, hq1, hq2⟩ := ih h
      exact ⟨q, List.mem_cons_of_mem _ hq, hq1, hq2⟩

/-- C1 helper: the filtered delta list inherits distinct ids. -/
theorem diff_entities_nodup (b : Baseline) (current : List PEntityState)
    (hids : (current.map PEntityState.id).Nodup) :
    ((current.filter (diffIncluded b)).map PEntityState.id).Nodup :=
  ((current.filter_sublist (p := diffIncluded b)).map PEntityState.id).nodup hids

/-- C1: Diff/Apply round trip.  Applying `Diff b current` to a receiver state
whose contents equal the baseline map yields exactly the current entity set:
every current id maps to the current bytes, and every other id (in particular
every id present in the baseline but absent from `current`) is absent. -/
theorem diff_apply_roundtrip (b : Baseline) (current : List PEntityState) (state : StateMap)
    (hids : (current.map PEntityState.id).Nodup)
    (hstate : ∀ id, mapLookup state id =
      (mapLookup b.entities id).map (fun bytes => PEntityState.mk id bytes)) :
    ∀ id, mapLookup (Apply state (Diff b current)) id = currentLookup current id := by
  intro id
  have hDnodup := diff_entities_nodup b current hids
  show mapLookup
      (((Diff b current).removed).foldl mapDelete
        ((current.filter (diffIncluded b)).foldl mapUpsert state)) id =
      currentLookup current id
  rw [mapLookup_foldl_delete, mapLookup_foldl_upsert _ _ _ hDnodup]
  have hremoved : ∀ i : EntityID, i ∈ (Diff b current).removed ↔
      ∃ p ∈ b.entities, p.1 = i ∧ (current.any (fun e => e.id == p.1)) = false := by
    intro i
    show i ∈ (b.entities.filter
        (fun p => !(current.any (fun e => e.id == p.1)))).map Prod.fst ↔ _
    simp only [List.mem_map, List.mem_filter, Bool.not_eq_eq_eq_not, Bool.not_true]
    constructor
    · rintro ⟨p, ⟨hp, hany⟩, hfst⟩
      exact ⟨p, hp, hfst, hany⟩
    · rintro ⟨p, hp, hfst, hany⟩
      exact ⟨p, ⟨hp, hany⟩, hfst⟩
  rw [find?_filter_eq current (diffIncluded b) (fun e => e.id == id)]
  cases hcur : current.find? (fun e => e.id == id) with
  | some e =>
    have heid : e.id = id := by
      have := List.find?_some hcur
      simpa using this
    have hemem : e ∈ current := List.mem_of_find?_eq_some hcur
    have hnotrem : id ∉ (Diff b current).removed := by
      rw [hremoved]
      rintro ⟨p, hp, hfst, hany⟩
      rw [List.any_eq_false] at hany
      have h6 := hany e hemem
      rw [hfst, heid] at h6
      simp at h6
    rw [if_neg hnotrem]
    by_cases hinc : diffIncluded b e = true
    · rw [find?_and_of_find? current (diffIncluded b) _ e hcur hinc]
      exact hcur.symm
    · have hcomb : current.find? (fun x => diffIncluded b x && (x.id == id)) = none := by
        apply List.find?_eq_none.mpr
        intro x hx
        simp only [Bool.and_eq_true, beq_iff_eq, not_and]
        intro hxinc hxid
        have hxe : x = e := by
          have := List.inj_on_of_nodup_map hids hx hemem (by rw [hxid, heid])
          exact this
        rw [hxe] at hxinc
        exact hinc hxinc
      rw [hcomb]
      cases hb : mapLookup b.entities e.id with
      | none => simp [diffIncluded, hb] at hinc
      | some old =>
        have hold : old = e.components := by
          simp only [diffIncluded, hb, Bool.not_eq_true', Bool.not_eq_false] at hinc
          exact (bytesEqual_iff old e.components).mp (by simpa using hinc)
        have hcur2 : currentLookup current e.id = some e := by
          rw [currentLookup, heid]
          exact hcur
        rw [hstate id, ← heid, hb, hold, hcur2]
        cases e
        rfl
  | none =>
    rw [currentLookup, hcur]
    have hnone : ∀ x ∈ current, (x.id == id) = false := by
      intro x hx
      have := List.find?_eq_none.mp hcur x hx
      simpa using this
    have hcomb : current.find? (fun x => diffIncluded b x && (x.id == id)) = none := by
      apply List.find?_eq_none.mpr
      intro x hx
      simp [hnone x hx]
    rw [hcomb]
    cases hb : mapLookup state id with
    | none =>
      by_cases hrem : id ∈ (Diff b current).removed <;> simp [hrem, hb]
    | some v =>
      have hrem : id ∈ (Diff b current).removed := by
        rw [hstate id] at hb
        cases hbe : mapLookup b.entities id with
        | none => rw [hbe] at hb; simp at hb
        | some old =>
          obtain ⟨p, hp, hfst, _⟩ := mapLookup_some_mem b.entities id old hbe
          rw [hremoved]
          refine ⟨p, hp, hfst, ?_⟩
          rw [List.any_eq_false]
          intro x hx
          simp [hfst, hnone x hx]
      simp [hrem]

/-- C1 witness: the concrete scenario of spec section 8 item 4.  Baseline holds
ids 1 and 2; current holds 2 (modified) and 3 (new); the receiver starts with
the baseline contents and ends with exactly the current contents. -/
theorem diff_apply_roundtrip_witness :
    ((([⟨2, [25]⟩, ⟨3, [30]⟩] : List PEntityState).map PEntityState.id).Nodup) ∧
    (∀ id, mapLookup
        (Apply [(1, ⟨1, [10]⟩), (2, ⟨2, [20]⟩)]
          (Diff ⟨5, [(1, [10]), (2, [20])]⟩ [⟨2, [25]⟩, ⟨3, [30]⟩])) id =
      currentLookup [⟨2, [25]⟩, ⟨3, [30]⟩] id) := by
  refine ⟨by decide, ?_⟩
  apply diff_apply_roundtrip ⟨5, [(1, [10]), (2, [20])]⟩ [⟨2, [25]⟩, ⟨3, [30]⟩]
    [(1, ⟨1, [10]⟩), (2, ⟨2, [20]⟩)] (by decide)
  intro id
  by_cases h1 : (1 : Nat) = id
  · subst h1; rfl
  · by_cases h2 : (2 : Nat) = id
    · subst h2; rfl
    · simp [mapLookup, h1, h2]

/-- C5 counterexample: with `Full = true` the `Removed` list still takes
effect, so the resulting state is not determined solely by `Entities` — two
full snapshots with identical `Entities` but different `Removed` lists yield
different states. -/
theorem apply_full_removed_counterexample :
    Apply [] { tick := 0, full := true, baseline := 0,
               entities := [⟨1, [0]⟩], removed := [1] } ≠
    Apply [] { tick := 0, full := true, baseline := 0,
               entities := [⟨1, [0]⟩], removed := [] } := by
  decide

/-- C5 (amended): applying a snapshot with `Full = true` clears the receiver
first, so the result is the upsert of `Entities` into an empty map followed by
deletion of every `Removed` id — independent of the prior state and of
`Baseline`, but not of `Removed`. -/
theorem apply_full_spec (state : StateMap) (snap : PStateSnapshot) (h : snap.full = true) :
    Apply state snap = snap.removed.foldl mapDelete (snap.entities.foldl mapUpsert []) := by
  unfold Apply
  rw [h]
  simp

/-- C5 witness: a concrete full snapshot applied over a nonempty prior state. -/
theorem apply_full_spec_witness :
    (({ tick := 7, full := true, baseline := 3, entities := [⟨1, [0]⟩],
        removed := [2] } : PStateSnapshot).full = true) ∧
    Apply [(2, ⟨2, [5]⟩)] { tick := 7, full := true, baseline := 3,
                            entities := [⟨1, [0]⟩], removed := [2] } =
      ([2] : List EntityID).foldl mapDelete
        (([⟨1, [0]⟩] : List PEntityState).foldl mapUpsert []) :=
  ⟨rfl, apply_full_spec [(2, ⟨2, [5]⟩)] _ rfl⟩

/-- C10: Diff never stamps the snapshot tick — the returned snapshot has
`Full = false`, `Baseline` equal to the baseline tick, and `Tick = 0` (the Go
composite literal never writes the current tick into `Tick`). -/
theorem diff_never_stamps_tick (b : Baseline) (current : List PEntityState) :
    (Diff b current).full = false ∧ (Diff b current).baseline = b.tick ∧
    (Diff b current).tick = 0 :=
  ⟨rfl, rfl, rfl⟩

/-- C3 counterexample: with both IntentLeft and IntentRight set in the same
tick, the input system leaves horizontal velocity at `+moveSpeed` — the
IntentRight assignment runs last and wins — not at zero. -/
theorem input_left_right_counterexample :
    ((runInputSystem inputDemoWorld).entities.map (fun e => e.vel.x)) = [moveSpeed] ∧
    (moveSpeed : ℚ) ≠ 0 := by
  exact ⟨rfl, by norm_num [moveSpeed]⟩

/-- C3 (amended): the input system resets horizontal velocity and recomputes
it solely from the intent bitmask (never accumulated, independent of the
previous velocity), but via two sequential assignments, so when IntentLeft
and IntentRight are both set the result is `+moveSpeed` (right wins), not
zero. -/
theorem input_system_reset_recompute (w : World) :
    (runInputSystem w).entities = w.entities.map inputEntityStep ∧
    ∀ e ctrl g, e.controller = some ctrl → e.grounded = some g →
      (inputEntityStep e).vel.x =
        (if hasIntent ctrl.intents IntentRight then moveSpeed
         else if hasIntent ctrl.intents IntentLeft then -moveSpeed else 0) := by
  refine ⟨rfl, ?_⟩
  intro e ctrl g hc hg
  simp only [inputEntityStep, hc, hg]

/-- C3 witness: the amended statement evaluated on the demo entity. -/
theorem input_system_reset_recompute_witness :
    (runInputSystem inputDemoWorld).entities = [inputDemoEntity].map inputEntityStep ∧
    (inputEntityStep inputDemoEntity).vel.x =
      (if hasIntent (Nat.lor IntentLeft IntentRight) IntentRight then moveSpeed
       else if hasIntent (Nat.lor IntentLeft IntentRight) IntentLeft then -moveSpeed
       else 0) :=
  ⟨(input_system_reset_recompute inputDemoWorld).1,
   (input_system_reset_recompute inputDemoWorld).2 inputDemoEntity
     { intents := Nat.lor IntentLeft IntentRight } { onGround := true } rfl rfl⟩

/-- C9: SetPlayerIntent ignores its playerID argument — the result is
identical for any two player ids, and every control-filter entity has its
Controller intents overwritten wholesale with the given bitmask. -/
theorem setPlayerIntent_ignores_playerID (w : World) (p1 p2 : Int) (i : Nat) :
    SetPlayerIntent w p1 i = SetPlayerIntent w p2 i ∧
    (SetPlayerIntent w p1 i).entities = w.entities.map (setIntentEntity i) ∧
    (∀ e ctrl g, e.controller = some ctrl → e.grounded = some g →
      (setIntentEntity i e).controller = some { intents := i }) := by
  refine ⟨rfl, rfl, ?_⟩
  intro e ctrl g hc hg
  simp [setIntentEntity, hc, hg]

/-- C9 witness: evaluated with the demo world and two different player ids. -/
theorem setPlayerIntent_ignores_playerID_witness :
    SetPlayerIntent inputDemoWorld 1 6 = SetPlayerIntent inputDemoWorld 2 6 ∧
    (SetPlayerIntent inputDemoWorld 1 6).entities =
      inputDemoWorld.entities.map (setIntentEntity 6) ∧
    (setIntentEntity 6 inputDemoEntity).controller = some { intents := 6 } :=
  ⟨(setPlayerIntent_ignores_playerID inputDemoWorld 1 2 6).1,
   (setPlayerIntent_ignores_playerID inputDemoWorld 1 2 6).2.1,
   (setPlayerIntent_ignores_playerID inputDemoWorld 1 2 6).2.2 inputDemoEntity
     { intents := Nat.lor IntentLeft IntentRight } { onGround := true } rfl rfl⟩

/-- C4 counterexample: two states with identical tick and positions but
different grounded flags share a checksum — only the tick and the quantized
positions are hashed — yet the detailed per-entity comparison reports a
mismatch.  Checksum equality therefore does not imply that the detailed
comparison would report a match. -/
theorem checksum_tiebreak_counterexample :
    stateGroundedTrue.checksum = stateGroundedFalse.checksum ∧
    detailedMatch stateGroundedTrue stateGroundedFalse (1 / 100) = false := by
  refine ⟨rfl, ?_⟩
  norm_num [detailedMatch, entityMatch, stateGroundedTrue, stateGroundedFalse,
    groundedSnapEntity]

/-- C4 (amended): checksum equality makes StatesMatch take the fast path and
report a match, skipping the detailed comparison entirely; it does not
guarantee that the detailed comparison would agree, since the checksum inputs
(tick, quantized positions) omit the grounded flag that the detailed
comparison checks. -/
theorem checksum_fast_path (a b : WorldState) (tolerance : ℚ)
    (h : a.checksum = b.checksum) :
    StatesMatch a b tolerance = true := by
  simp [StatesMatch, h]

/-- C4 witness: the fast path on the two grounded-flag-divergent states. -/
theorem checksum_fast_path_witness :
    stateGroundedTrue.checksum = stateGroundedFalse.checksum ∧
    StatesMatch stateGroundedTrue stateGroundedFalse (1 / 100) = true :=
  ⟨rfl, checksum_fast_path stateGroundedTrue stateGroundedFalse (1 / 100) rfl⟩

/-- C2: determinism — running the tick pipeline twice from the same initial
state over the same per-tick intent sequence yields identical world states
and, in particular, identical snapshot checksums at every tick.  The embedded
Update pipeline is a pure function of the world state: it reads no wall
clock, uses no randomness, and iterates entities in the deterministic ark
query order. -/
theorem update_deterministic (w : World) (inputs : List (Int × Nat))
    (r1 r2 : List WorldState)
    (h1 : r1 = runTicks w inputs) (h2 : r2 = runTicks w inputs) :
    r1 = r2 ∧ r1.map WorldState.checksum = r2.map WorldState.checksum := by
  subst h1
  subst h2
  exact ⟨rfl, rfl⟩

/-- C2 witness: two replays of a concrete two-tick input sequence. -/
theorem update_deterministic_witness :
    runTicks inputDemoWorld [(1, 2), (1, 8)] = runTicks inputDemoWorld [(1, 2), (1, 8)] ∧
    (runTicks inputDemoWorld [(1, 2), (1, 8)]).map WorldState.checksum =
      (runTicks inputDemoWorld [(1, 2), (1, 8)]).map WorldState.checksum :=
  update_deterministic inputDemoWorld [(1, 2), (1, 8)] _ _ rfl rfl

theorem hasIntent_attack_left : hasIntent IntentAttack IntentLeft = false := rfl

theorem hasIntent_attack_right : hasIntent IntentAttack IntentRight = false := rfl

theorem hasIntent_attack_jump : hasIntent IntentAttack IntentJump = false := rfl

theorem hasIntent_attack_attack : hasIntent IntentAttack IntentAttack = true := rfl

theorem hasIntent_none (flag : Nat) : hasIntent IntentNone flag = false := by
  have h : Nat.land 0 flag = 0 := Nat.zero_and flag
  simp [hasIntent, IntentNone, h]

/-- One held-attack tick from a charging single-player world: the charge
counter increments (clamped at MaxChargeTicks) and nothing fires. -/
theorem stepTick_charging (w : World) (pos : Position) (vy : ℚ) (spr : Sprite)
    (g : Grounded) (a : AttackState)
    (hw : w.entities = [chargingEntity pos vy spr g a])
    (hmap : w.tileMap = none)
    (hch : a.charging = true) (hwp : a.attackWasPressed = true)
    (hatk : a.attacking = false) :
    ∃ pos2 vy2 spr2,
      (stepTick w 1 IntentAttack).entities = [chargingEntity pos2 vy2 spr2 ⟨false⟩
        { a with chargeTicks :=
            if a.chargeTicks + 1 > MaxChargeTicks then MaxChargeTicks
            else a.chargeTicks + 1 }] ∧
      (stepTick w 1 IntentAttack).tileMap = none ∧
      (stepTick w 1 IntentAttack).nextEID = w.nextEID := by
  simp [stepTick, Update, SetPlayerIntent, runInputSystem, runAttackSystem,
      runFistSystem, runPhysicsSystem, runCollisionSystem, hw, hmap,
      chargingEntity, setIntentEntity,
      inputEntityStep, attackEntityStep, fistEntityStep, physicsEntityStep,
      hasIntent_attack_left, hasIntent_attack_right, hasIntent_attack_jump,
      hasIntent_attack_attack, hch, hwp, hatk]

/-- One released tick from a charging single-player world: exactly one fist
spawns, with the travel distance computed from the accumulated charge. -/
theorem stepTick_release (w : World) (pos : Position) (vy : ℚ) (spr : Sprite)
    (g : Grounded) (a : AttackState)
    (hw : w.entities = [chargingEntity pos vy spr g a])
    (hmap : w.tileMap = none)
    (hch : a.charging = true) (hwp : a.attackWasPressed = true)
    (hatk : a.attacking = false) (hfr : a.facingRight = true)
    (hsmall : FistSpeed < fistDistance a.chargeTicks) :
    spawnedFists (stepTick w 1 IntentNone) =
      [{ startX := pos.x, maxDistance := fistDistance a.chargeTicks,
         facingRight := true, ownerID := 1 }] := by
  have hkeep : ¬ (fistDistance a.chargeTicks ≤ FistSpeed) := not_le.mpr hsmall
  simp [spawnedFists, stepTick, Update, SetPlayerIntent, runInputSystem,
      runAttackSystem, runFistSystem, runPhysicsSystem, runCollisionSystem,
      hw, hmap, chargingEntity, setIntentEntity, inputEntityStep,
      attackEntityStep, fistEntityStep, physicsEntityStep, SpawnFist,
      hasIntent_none, hch, hwp, hatk, hfr, hkeep, AttackCooldown]

/-- Holding attack for one tick from idle starts charging with one charge
tick accumulated. -/
theorem holdAttack_one :
    ∃ pos vy spr, (holdAttack 1).entities =
        [chargingEntity pos vy spr ⟨false⟩ (chargingState 1)] ∧
      (holdAttack 1).tileMap = none ∧ (holdAttack 1).nextEID = 2 := by
  simp [holdAttack, stepTick, Update, SetPlayerIntent, runInputSystem,
    runAttackSystem, runFistSystem, runPhysicsSystem, runCollisionSystem,
    chargeWorld, demoPlayer, chargingEntity, chargingState, setIntentEntity,
    inputEntityStep, attackEntityStep, fistEntityStep, physicsEntityStep,
    hasIntent_attack_left, hasIntent_attack_right, hasIntent_attack_jump,
    hasIntent_attack_attack, MaxChargeTicks]

/-- After holding attack for `n ≥ 1` ticks, the player is charging with
`min n MaxChargeTicks` charge ticks accumulated. -/
theorem holdAttack_charging (n : Nat) (hn : 1 ≤ n) :
    ∃ pos vy spr, (holdAttack n).entities =
        [chargingEntity pos vy spr ⟨false⟩ (chargingState n)] ∧
      (holdAttack n).tileMap = none ∧ (holdAttack n).nextEID = 2 := by
  induction n with
  | zero => omega
  | succ m ih =>
    by_cases hm : 1 ≤ m
    · obtain ⟨pos, vy, spr, hent, hmap, hnid⟩ := ih hm
      obtain ⟨pos2, vy2, spr2, h1, h2, h3⟩ :=
        stepTick_charging (holdAttack m) pos vy spr ⟨false⟩ (chargingState m)
          hent hmap rfl rfl rfl
      have hstep : holdAttack (m + 1) = stepTick (holdAttack m) 1 IntentAttack := rfl
      refine ⟨pos2, vy2, spr2, ?_, by rw [hstep]; exact h2, by rw [hstep, h3, hnid]⟩
      rw [hstep, h1]
      have harith : ({ chargingState m with chargeTicks :=
          if (chargingState m).chargeTicks + 1 > MaxChargeTicks then MaxChargeTicks
          else (chargingState m).chargeTicks + 1 } : AttackState) = chargingState (m + 1) := by
        simp only [chargingState, MaxChargeTicks]
        push_cast
        split_ifs <;> simp_all <;> omega
      rw [harith]
    · have hm0 : m = 0 := by omega
      subst hm0
      exact holdAttack_one

/-- The release distance is at least MinFistDistance for a nonnegative
charge. -/
theorem fistDistance_ge_min (t : Int) (h : 0 ≤ t) : MinFistDistance ≤ fistDistance t := by
  unfold fistDistance MinFistDistance MaxFistDistance MaxChargeTicks
  have h0 : (0 : ℚ) ≤ (t : ℚ) := by exact_mod_cast h
  have h2 : (0 : ℚ) ≤ (t : ℚ) / ((180 : Int) : ℚ) := div_nonneg h0 (by norm_num)
  nlinarith [h2]

/-- Hold attack for `n ≥ 1` ticks and release: exactly one fist spawns, with
maximum distance `fistDistance (min n MaxChargeTicks)`. -/
theorem holdRelease_spawn (n : Nat) (hn : 1 ≤ n) :
    ∃ sx, spawnedFists (holdRelease n) =
      [{ startX := sx, maxDistance := fistDistance (min (n : Int) MaxChargeTicks),
         facingRight := true, ownerID := 1 }] := by
  obtain ⟨pos, vy, spr, hent, hmap, _⟩ := holdAttack_charging n hn
  have hmin0 : (0 : Int) ≤ min (n : Int) MaxChargeTicks := by
    simp [MaxChargeTicks]
  have hsmall : FistSpeed < fistDistance (chargingState n).chargeTicks := by
    have hge := fistDistance_ge_min _ hmin0
    have hlt : FistSpeed < MinFistDistance := by norm_num [FistSpeed, MinFistDistance]
    simp only [chargingState]
    exact lt_of_lt_of_le hlt hge
  have hrel := stepTick_release (holdAttack n) pos vy spr ⟨false⟩ (chargingState n)
    hent hmap rfl rfl rfl rfl hsmall
  refine ⟨pos.x, ?_⟩
  have hh : holdRelease n = stepTick (holdAttack n) 1 IntentNone := rfl
  rw [hh]
  simpa [chargingState] using hrel

/-- The release distance formula is monotone in the charge duration. -/
theorem fistDistance_mono (t1 t2 : Int) (hle : t1 ≤ t2) :
    fistDistance t1 ≤ fistDistance t2 := by
  unfold fistDistance MinFistDistance MaxFistDistance MaxChargeTicks
  have hc : (t1 : ℚ) ≤ (t2 : ℚ) := by exact_mod_cast hle
  have hd : (t1 : ℚ) / ((180 : Int) : ℚ) ≤ (t2 : ℚ) / ((180 : Int) : ℚ) :=
    (div_le_div_iff_of_pos_right (by norm_num)).mpr hc
  nlinarith [hd]

/-- C6: charge-distance monotonicity.  For `0 ≤ t1 < t2 ≤ MaxChargeTicks` the
release distance formula of runAttackSystem is monotone, and in the
end-to-end scenario a fist released after charging t1 ticks carries a maximum
travel distance no greater than one released after t2 ticks. -/
theorem charge_distance_mono (t1 t2 : Int) (h0 : 0 ≤ t1) (hlt : t1 < t2)
    (hle : t2 ≤ MaxChargeTicks) :
    fistDistance t1 ≤ fistDistance t2 ∧
    (∀ n1 n2 : Nat, (n1 : Int) = t1 → (n2 : Int) = t2 → 1 ≤ n1 →
      (spawnedFists (holdRelease n1)).map Fist.maxDistance = [fistDistance t1] ∧
      (spawnedFists (holdRelease n2)).map Fist.maxDistance = [fistDistance t2]) := by
  refine ⟨fistDistance_mono t1 t2 hlt.le, ?_⟩
  intro n1 n2 hc1 hc2 hn1
  have hn2 : 1 ≤ n2 := by omega
  obtain ⟨sx1, h1⟩ := holdRelease_spawn n1 hn1
  obtain ⟨sx2, h2⟩ := holdRelease_spawn n2 hn2
  have e1 : min ((n1 : Int)) MaxChargeTicks = t1 := by
    rw [hc1]
    exact min_eq_left (by omega)
  have e2 : min ((n2 : Int)) MaxChargeTicks = t2 := by
    rw [hc2]
    exact min_eq_left hle
  rw [e1] at h1
  rw [e2] at h2
  rw [h1, h2]
  exact ⟨rfl, rfl⟩

/-- C6 witness: one charge tick versus a full charge. -/
theorem charge_distance_mono_witness :
    ((0 : Int) ≤ 1 ∧ (1 : Int) < 180 ∧ (180 : Int) ≤ MaxChargeTicks) ∧
    fistDistance 1 ≤ fistDistance 180 ∧
    (spawnedFists (holdRelease 1)).map Fist.maxDistance = [fistDistance 1] ∧
    (spawnedFists (holdRelease 180)).map Fist.maxDistance = [fistDistance 180] := by
  have h := charge_distance_mono 1 180 (by norm_num) (by norm_num)
    (by norm_num [MaxChargeTicks])
  have h2 := h.2 1 180 (by norm_num) (by norm_num) (by norm_num)
  exact ⟨⟨by norm_num, by norm_num, by norm_num [MaxChargeTicks]⟩, h.1, h2.1, h2.2⟩

/-- C7 counterexample: a single-tick press then release spawns a fist whose
maximum distance is `MinFistDistance + (1/MaxChargeTicks)·(MaxFistDistance −
MinFistDistance)` (one charge tick is accumulated on the press tick), which
is strictly greater than MinFistDistance. -/
theorem single_tick_press_counterexample :
    (spawnedFists (holdRelease 1)).map Fist.maxDistance ≠ [MinFistDistance] := by
  obtain ⟨sx, h⟩ := holdRelease_spawn 1 (by norm_num)
  rw [h]
  have e1 : min ((1 : Nat) : Int) MaxChargeTicks = 1 := by
    simp [MaxChargeTicks]
  rw [e1]
  simp only [List.map_cons, List.map_nil, ne_eq, List.cons.injEq, and_true]
  norm_num [fistDistance, MaxChargeTicks, MinFistDistance, MaxFistDistance]

/-- C7 (amended): holding the attack intent for exactly MaxChargeTicks ticks
and releasing spawns a fist with maximum distance exactly MaxFistDistance; a
single-tick press then release spawns one with maximum distance
`MinFistDistance + (1/MaxChargeTicks)·(MaxFistDistance − MinFistDistance)`
(≈ 1.106), not MinFistDistance, because the press tick itself accumulates one
charge tick. -/
theorem charge_release_endpoints :
    (spawnedFists (holdRelease 180)).map Fist.maxDistance = [MaxFistDistance] ∧
    (spawnedFists (holdRelease 1)).map Fist.maxDistance =
      [MinFistDistance + (1 / (MaxChargeTicks : ℚ)) * (MaxFistDistance - MinFistDistance)] ∧
    MinFistDistance + (1 / (MaxChargeTicks : ℚ)) * (MaxFistDistance - MinFistDistance)
      ≠ MinFistDistance := by
  obtain ⟨sxa, ha⟩ := holdRelease_spawn 180 (by norm_num)
  obtain ⟨sxb, hb⟩ := holdRelease_spawn 1 (by norm_num)
  have ea : min ((180 : Nat) : Int) MaxChargeTicks = 180 := by
    simp [MaxChargeTicks]
  have eb : min ((1 : Nat) : Int) MaxChargeTicks = 1 := by
    simp [MaxChargeTicks]
  rw [ea] at ha
  rw [eb] at hb
  refine ⟨?_, ?_, ?_⟩
  · rw [ha]
    norm_num [fistDistance, MaxChargeTicks, MinFistDistance, MaxFistDistance]
  · rw [hb]
    norm_num [fistDistance, MaxChargeTicks, MinFistDistance, MaxFistDistance]
  · norm_num [MaxChargeTicks, MinFistDistance, MaxFistDistance]

theorem setIntentEntity_comp (i j : Nat) (e : Entity) :
    setIntentEntity i (setIntentEntity j e) = setIntentEntity i e := by
  cases hc : e.controller with
  | none => simp [setIntentEntity, hc]
  | some c =>
    cases hg : e.grounded with
    | none => simp [setIntentEntity, hc, hg]
    | some g => simp [setIntentEntity, hc, hg]

theorem setIntent_foldl_entities (w : World) (ps : List (Int × Nat)) :
    ((ps.foldl (fun w2 p => SetPlayerIntent w2 p.1 p.2) w)).entities =
      match ps.getLast? with
      | some p => w.entities.map (setIntentEntity p.2)
      | none => w.entities := by
  induction ps generalizing w with
  | nil => rfl
  | cons p rest ih =>
    cases rest with
    | nil => simp [SetPlayerIntent]
    | cons q t =>
      rw [List.foldl_cons, ih]
      cases hlast : (q :: t).getLast? with
      | none => simp at hlast
      | some r =>
        have h2 : (p :: q :: t).getLast? = some r := by
          rw [List.getLast?_cons_cons]
          exact hlast
        rw [h2]
        simp [SetPlayerIntent, setIntentEntity_comp]

theorem inputPhase_eq (srv : Server) :
    inputPhase srv =
      (drainedPairs srv).foldl (fun w p => SetPlayerIntent w p.1 p.2) srv.world := by
  unfold inputPhase drainedPairs
  rw [List.foldl_flatten]
  rw [List.foldl_map]
  congr 1
  funext w sess
  rw [List.foldl_map]
theorem setIntent_foldl_tick (w : World) (ps : List (Int × Nat)) :
    (ps.foldl (fun w2 p => SetPlayerIntent w2 p.1 p.2) w).tick = w.tick := by
  induction ps generalizing w with
  | nil => rfl
  | cons p rest ih =>
    rw [List.foldl_cons, ih]
    rfl

theorem inputPhase_tick (srv : Server) : (inputPhase srv).tick = srv.world.tick := by
  rw [inputPhase_eq, setIntent_foldl_tick]

theorem spawnFists_foldl_tick (w : World) (l : List FistSpawn) :
    (l.foldl (fun wa s =>
      (SpawnFist wa s.x s.y s.facingRight s.distance s.ownerID).1) w).tick = w.tick := by
  induction l generalizing w with
  | nil => rfl
  | cons s rest ih =>
    rw [List.foldl_cons, ih]
    rfl

theorem runAttackSystem_tick (w : World) : (runAttackSystem w).tick = w.tick := by
  unfold runAttackSystem
  rw [spawnFists_foldl_tick]

theorem runCollisionSystem_tick (w : World) : (runCollisionSystem w).tick = w.tick := by
  cases h : w.tileMap <;> simp [runCollisionSystem, h]

theorem update_tick (w : World) : (Update w).tick = w.tick + 1 := by
  unfold Update
  rw [runCollisionSystem_tick]
  have h1 : ∀ v : World, (runPhysicsSystem v).tick = v.tick := fun v => rfl
  have h2 : ∀ v : World, (runFistSystem v).tick = v.tick := fun v => rfl
  have h3 : ∀ v : World, (runInputSystem v).tick = v.tick := fun v => rfl
  rw [h1, h2, runAttackSystem_tick, h3]

/-- C8 (amended): on every server tick, processTick removes from each
session queue exactly the frames with tick ≤ currentTick+1 (later frames
remain queued, in order), applies every drained frame wholesale via
SetPlayerIntent — which overwrites the Controller of every controllable
entity, so after the input phase all of them carry the intents of the last
drained frame across all sessions in iteration order (not each session's own
latest frame) — and then calls World.Update exactly once, advancing the tick
by one. -/
theorem processTick_spec (srv : Server) :
    ((processTick srv).sessions = srv.sessions.map (retainLater (srv.tick + 1))) ∧
    (processTick srv).world = Update (inputPhase srv) ∧
    (processTick srv).world.tick = srv.world.tick + 1 ∧
    ((inputPhase srv).entities =
      match (drainedPairs srv).getLast? with
      | some p => srv.world.entities.map (setIntentEntity p.2)
      | none => srv.world.entities) := by
  refine ⟨?_, rfl, ?_, ?_⟩
  · show srv.sessions.map (fun s => (DrainInputs s (srv.tick + 1)).2) = _
    have hfun : (fun s => (DrainInputs s (srv.tick + 1)).2) =
        retainLater (srv.tick + 1) := by
      funext s
      simp only [DrainInputs, retainLater]
      congr 1
      apply List.filter_congr
      intro f _
      by_cases h : f.tick ≤ srv.tick + 1
      · simp [h]
      · simp [h]
        omega
    rw [hfun]
  · show (Update (inputPhase srv)).tick = srv.world.tick + 1
    rw [update_tick, inputPhase_tick]
  · rw [inputPhase_eq, setIntent_foldl_entities]

theorem hasIntent_right_left : hasIntent IntentRight IntentLeft = false := rfl
theorem hasIntent_right_right : hasIntent IntentRight IntentRight = true := rfl
theorem hasIntent_right_jump : hasIntent IntentRight IntentJump = false := rfl
theorem hasIntent_right_attack : hasIntent IntentRight IntentAttack = false := rfl

/-- C8 counterexample: with two sessions (players 1 and 2) each draining one
frame for the tick, session 1's player entity ends the input phase with
session 2's intents (IntentRight), not with the intents of session 1's own
latest drained frame (IntentLeft) — SetPlayerIntent ignores the player id and
the later session overwrites every controller. -/
theorem processTick_counterexample :
    ((processTick srvDemo).world.entities.filterMap
        (fun e => if e.player = some { id := 1, name := "" } then e.controller else none))
      = [{ intents := IntentRight }] ∧
    ((DrainInputs sessionA (srvDemo.tick + 1)).1.map InputFrame.intents = [IntentLeft]) ∧
    ({ intents := IntentRight } : Controller) ≠ { intents := IntentLeft } := by
  refine ⟨?_, rfl, by decide⟩
  simp [processTick, inputPhase, srvDemo, sessionA, sessionB, DrainInputs, twoPlayerEntity,
    SetPlayerIntent, setIntentEntity, Update, runInputSystem, inputEntityStep,
    runAttackSystem, attackEntityStep, runFistSystem, fistEntityStep,
    runPhysicsSystem, physicsEntityStep, runCollisionSystem,
    hasIntent_right_left, hasIntent_right_right, hasIntent_right_jump, hasIntent_right_attack]

end Rayman

